import Mathlib

/-
  Shallow embedding of the WPILog decoder and resampler
  (source: wpilog_processor.py).

  Modelling conventions:
  * byte buffers are lists of natural numbers (one element per byte);
  * Python floats are modelled exactly: every finite IEEE-754 value is a
    rational, so `PyFloat` is a tagged union of a rational, signed infinity
    and NaN; timestamps (int64 microseconds divided by 1000000) are kept as
    exact rationals;
  * Python exceptions become `Except` values; the blanket `except` in the
    record loop of `parse_wpilog` converts any such error into a printed
    message and a `break`, which we model by a `LogMsg` entry in the output
    and immediate termination of the loop;
  * Python dicts keyed by int or str become insertion-ordered association
    lists with overwriting update, matching dict semantics.
-/

namespace WPILog

/-- Value of a Python float: every finite IEEE-754 double is an exact
rational; infinities and NaN are separate tags. -/
inductive PyFloat where
  | finite (q : ℚ)
  | inf (neg : Bool)
  | nan
  deriving DecidableEq, Repr

/-- Dynamic Python value as produced by `parse_value`: booleans, ints,
floats, strings and (possibly nested) lists of these. -/
inductive PyValue where
  | bool (b : Bool)
  | int (i : ℤ)
  | float (f : PyFloat)
  | str (s : String)
  | list (vs : List PyValue)

/-- Python exceptions raised by the decoding primitives. -/
inductive PErr where
  | structError (nbytes : Nat)
  | indexError
  | unicodeError
  | valueError (msg : String)
  deriving DecidableEq, Repr

/-- A decoded event: `Entry(timestamp, name, value)` from the source. -/
structure Entry where
  timestamp : ℚ
  name : String
  value : PyValue

/-- The metadata table: `WPILogMetadata` from the source.  The two dicts are
insertion-ordered association lists from entry id to string. -/
structure WPILogMetadata where
  entry_names : List (Int × String)
  entry_types : List (Int × String)
  start_time : Option ℚ

/-- Python dict assignment `d[k] = v`: overwrite in place if the key is
present, else append the new binding at the end. -/
def dictSet (d : List (Int × String)) (k : Int) (v : String) : List (Int × String) :=
  if (d.lookup k).isSome then
    d.map (fun p => if p.1 = k then (k, v) else p)
  else
    d ++ [(k, v)]

/-- Python slice `data[offset : offset + k]`: never fails, may be short. -/
def sliceN (data : List Nat) (offset k : Nat) : List Nat :=
  (data.drop offset).take k

/-- Model of `struct.unpack` on a slice: succeeds exactly when the slice has
the full requested width, else raises `struct.error`. -/
def unpackExact (data : List Nat) (offset k : Nat) : Except PErr (List Nat) :=
  if (sliceN data offset k).length = k then .ok (sliceN data offset k)
  else .error (.structError k)

/-- Python indexing `data[i]`: `IndexError` when out of range. -/
def byteAt (data : List Nat) (i : Nat) : Except PErr Nat :=
  if i < data.length then .ok (data.getD i 0) else .error .indexError

/-- Little-endian unsigned integer value of a byte list. -/
def natOfLE : List Nat → Nat
  | [] => 0
  | b :: rest => b + 256 * natOfLE rest

/-- Little-endian twos-complement signed value of a byte list
(`struct.unpack` with a signed format). -/
def intOfLESigned (bytes : List Nat) : Int :=
  let n := natOfLE bytes
  let w := bytes.length
  if n < 2 ^ (8 * w - 1) then (n : Int) else (n : Int) - 2 ^ (8 * w)

/-
Rational arithmetic helpers.  `Rat.add`, `Rat.sub`, `Rat.mul` and `Rat.inv`
are irreducible in this toolchain, so closed theorems about concrete
buffers could not be settled by definitional evaluation through them.  The
embedding therefore computes with the following definitionally reducible
forms; the bridge theorems `qadd_eq_add` and friends (in the theorem
section below) prove each one equal to the standard operation, so the
definitions denote exactly the arithmetic of the source.
-/

/-- Addition on ℚ in reducible form. -/
def qadd (a b : ℚ) : ℚ := Rat.divInt (a.num * b.den + b.num * a.den) (a.den * b.den)

/-- Subtraction on ℚ in reducible form. -/
def qsub (a b : ℚ) : ℚ := Rat.divInt (a.num * b.den - b.num * a.den) (a.den * b.den)

/-- Multiplication on ℚ in reducible form. -/
def qmul (a b : ℚ) : ℚ := Rat.divInt (a.num * b.num) (a.den * b.den)

/-- Division on ℚ in reducible form. -/
def qdiv (a b : ℚ) : ℚ := Rat.divInt (a.num * b.den) (a.den * b.num)

/-- Integer power of two on ℚ in reducible form. -/
def pow2 (e : ℤ) : ℚ :=
  if 0 ≤ e then Rat.divInt ((2 : ℤ) ^ e.toNat) 1 else Rat.divInt 1 ((2 : ℤ) ^ (-e).toNat)

/-- Exact value of an IEEE-754 binary float given exponent and mantissa
field widths and the little-endian bytes. -/
def decodeIEEE (expBits mantBits : Nat) (bytesLE : List Nat) : PyFloat :=
  let n := natOfLE bytesLE
  let mant := n % 2 ^ mantBits
  let expF := n / 2 ^ mantBits % 2 ^ expBits
  let negSign := n / 2 ^ (mantBits + expBits) % 2 = 1
  let bias : Int := 2 ^ (expBits - 1) - 1
  if expF = 2 ^ expBits - 1 then
    if mant = 0 then .inf negSign else .nan
  else
    let mag : ℚ :=
      if expF = 0 then qmul (mant : ℚ) (pow2 (1 - bias - (mantBits : Int)))
      else qmul ((2 ^ mantBits + mant : Nat) : ℚ) (pow2 ((expF : Int) - bias - (mantBits : Int)))
    .finite (if negSign then -mag else mag)

/-- IEEE-754 single precision, as read by `struct.unpack` with format f. -/
def f32OfBytes : List Nat → PyFloat := decodeIEEE 8 23

/-- IEEE-754 double precision, as read by `struct.unpack` with format d. -/
def f64OfBytes : List Nat → PyFloat := decodeIEEE 11 52

/-- True for UTF-8 continuation bytes. -/
def isCont (b : Nat) : Bool := 0x80 ≤ b && b < 0xC0

/-- Strict UTF-8 decoding of a byte list to characters, rejecting overlong
encodings, surrogates and values beyond the Unicode range, as Python's
strict utf-8 codec does.  Recursion is on a fuel argument so the function
unfolds definitionally; each step consumes at least one byte, so fuel equal
to the byte count (supplied by `utf8Chars`) always suffices. -/
def utf8CharsF : Nat → List Nat → Option (List Char)
  | _, [] => some []
  | 0, _ :: _ => none
  | fuel + 1, b :: rest =>
    if b < 0x80 then
      (utf8CharsF fuel rest).map (fun cs => Char.ofNat b :: cs)
    else if b < 0xC2 then none
    else if b < 0xE0 then
      match rest with
      | b1 :: rest1 =>
        if isCont b1 then
          (utf8CharsF fuel rest1).map (fun cs => Char.ofNat ((b - 0xC0) * 0x40 + (b1 - 0x80)) :: cs)
        else none
      | [] => none
    else if b < 0xF0 then
      match rest with
      | b1 :: b2 :: rest2 =>
        if isCont b1 && isCont b2 && (b != 0xE0 || decide (0xA0 ≤ b1)) &&
            (b != 0xED || decide (b1 < 0xA0)) then
          (utf8CharsF fuel rest2).map
            (fun cs => Char.ofNat ((b - 0xE0) * 0x1000 + (b1 - 0x80) * 0x40 + (b2 - 0x80)) :: cs)
        else none
      | _ => none
    else if b < 0xF5 then
      match rest with
      | b1 :: b2 :: b3 :: rest3 =>
        if isCont b1 && isCont b2 && isCont b3 && (b != 0xF0 || decide (0x90 ≤ b1)) &&
            (b != 0xF4 || decide (b1 < 0x90)) then
          (utf8CharsF fuel rest3).map
            (fun cs => Char.ofNat ((b - 0xF0) * 0x40000 + (b1 - 0x80) * 0x1000 +
              (b2 - 0x80) * 0x40 + (b3 - 0x80)) :: cs)
        else none
      | _ => none
    else none

/-- Strict UTF-8 decoding of a byte list. -/
def utf8Chars (bs : List Nat) : Option (List Char) := utf8CharsF bs.length bs

/-- Python `bytes.decode` with the utf-8 codec: `UnicodeDecodeError` on
invalid input. -/
def decodeUtf8 (bs : List Nat) : Except PErr String :=
  match utf8Chars bs with
  | some cs => .ok ⟨cs⟩
  | none => .error .unicodeError

/-- The source function `read_string(data, offset)`: a 16-bit little-endian
length prefix, then that many bytes decoded as UTF-8, returning the string
and the advanced offset.  The payload slice is a Python slice and silently
truncates at the end of the buffer. -/
def read_string (data : List Nat) (offset : Nat) : Except PErr (String × Nat) :=
  match unpackExact data offset 2 with
  | .error e => .error e
  | .ok lenBytes =>
    let length := natOfLE lenBytes
    match decodeUtf8 (sliceN data (offset + 2) length) with
    | .error e => .error e
    | .ok s => .ok (s, offset + 2 + length)

/-- Split a character list at the first semicolon, when there is one. -/
def splitCharsAtSemi : List Char → Option (List Char × List Char)
  | [] => none
  | c :: rest =>
    if c = ';' then some ([], rest)
    else (splitCharsAtSemi rest).map (fun p => (c :: p.1, p.2))

/-- Python `s.split(chr59, 1)` followed by unpacking into exactly two
variables: `ValueError` when the separator does not occur. -/
def splitFirstSemi (s : String) : Except PErr (String × String) :=
  match splitCharsAtSemi s.data with
  | some (a, b) => .ok (⟨a⟩, ⟨b⟩)
  | none => .error (.valueError "not enough values to unpack")

/-- Decimal value of a nonempty all-digit character list. -/
def digitsVal (cs : List Char) : Option Nat :=
  if cs.isEmpty then none
  else cs.foldlM (fun acc c => if c.isDigit then some (acc * 10 + (c.toNat - 48)) else none) 0

/-- Python `int(s)` on the id field: an optional sign followed by decimal
digits; `ValueError` otherwise. -/
def pyInt (s : String) : Except PErr Int :=
  match s.data with
  | '-' :: rest =>
    match digitsVal rest with
    | some n => .ok (-(n : Int))
    | none => .error (.valueError "invalid literal for int")
  | '+' :: rest =>
    match digitsVal rest with
    | some n => .ok ((n : Int))
    | none => .error (.valueError "invalid literal for int")
  | cs =>
    match digitsVal cs with
    | some n => .ok ((n : Int))
    | none => .error (.valueError "invalid literal for int")

/-- One boolean scalar: `struct.unpack` with format ?, one byte, any nonzero
byte is True. -/
def parseBool (data : List Nat) (offset : Nat) : Except PErr (PyValue × Nat) :=
  match unpackExact data offset 1 with
  | .error e => .error e
  | .ok bs => .ok (.bool (bs.headD 0 != 0), offset + 1)

/-- One signed 64-bit scalar, little-endian. -/
def parseInt64 (data : List Nat) (offset : Nat) : Except PErr (PyValue × Nat) :=
  match unpackExact data offset 8 with
  | .error e => .error e
  | .ok bs => .ok (.int (intOfLESigned bs), offset + 8)

/-- One single-precision float scalar, little-endian. -/
def parseF32 (data : List Nat) (offset : Nat) : Except PErr (PyValue × Nat) :=
  match unpackExact data offset 4 with
  | .error e => .error e
  | .ok bs => .ok (.float (f32OfBytes bs), offset + 4)

/-- One double-precision float scalar, little-endian. -/
def parseF64 (data : List Nat) (offset : Nat) : Except PErr (PyValue × Nat) :=
  match unpackExact data offset 8 with
  | .error e => .error e
  | .ok bs => .ok (.float (f64OfBytes bs), offset + 8)

/-- One length-prefixed string scalar, via `read_string`. -/
def parseStr (data : List Nat) (offset : Nat) : Except PErr (PyValue × Nat) :=
  match read_string data offset with
  | .error e => .error e
  | .ok (s, off) => .ok (.str s, off)

/-- Decode `n` consecutive elements with the given scalar decoder, in order,
as the array loops of `parse_value` do. -/
def parseArray (elem : List Nat → Nat → Except PErr (PyValue × Nat)) :
    Nat → List Nat → Nat → Except PErr (List PyValue × Nat)
  | 0, _, offset => .ok ([], offset)
  | n + 1, data, offset =>
    match elem data offset with
    | .error e => .error e
    | .ok (v, off1) =>
      match parseArray elem n data off1 with
      | .error e => .error e
      | .ok (vs, off2) => .ok (v :: vs, off2)

/-- A u32 element count followed by that many elements: the array branches
of `parse_value`. -/
def parseValueArray (elem : List Nat → Nat → Except PErr (PyValue × Nat))
    (data : List Nat) (offset : Nat) : Except PErr (PyValue × Nat) :=
  match unpackExact data offset 4 with
  | .error e => .error e
  | .ok lenBytes =>
    match parseArray elem (natOfLE lenBytes) data (offset + 4) with
    | .error e => .error e
    | .ok (vs, off1) => .ok (.list vs, off1)

/-- The source function `parse_value(data, offset, entry_type)`: dispatch on
the type name; unknown names raise `ValueError`. -/
def parse_value (data : List Nat) (offset : Nat) (entry_type : String) :
    Except PErr (PyValue × Nat) :=
  if entry_type = "boolean" then parseBool data offset
  else if entry_type = "int" then parseInt64 data offset
  else if entry_type = "float" then parseF32 data offset
  else if entry_type = "double" then parseF64 data offset
  else if entry_type = "string" then parseStr data offset
  else if entry_type = "boolean[]" then parseValueArray parseBool data offset
  else if entry_type = "int[]" then parseValueArray parseInt64 data offset
  else if entry_type = "float[]" then parseValueArray parseF32 data offset
  else if entry_type = "double[]" then parseValueArray parseF64 data offset
  else if entry_type = "string[]" then parseValueArray parseStr data offset
  else .error (.valueError ("Unknown type: " ++ entry_type))

/-- Messages printed by the record loop of `parse_wpilog`; recording them in
the output lets theorems state how a decode ended. -/
inductive LogMsg where
  | unknownControlType (t : Nat)
  | unknownEntryId (id : Nat)
  | unknownEntryKind (k : Nat)
  | parseError (offset : Nat) (e : PErr)

/-- Result of `parse_wpilog`: the metadata table, the decoded entries, and
the messages printed on the way. -/
structure ParseOut where
  metadata : WPILogMetadata
  entries : List Entry
  logs : List LogMsg

/-- The kind-1 (metadata) record handler from the source: keys entry and
type update the two dicts via the first-semicolon split and `int` parse of
the id; any other key is ignored. -/
def metadataStep (md : WPILogMetadata) (key payload : String) : Except PErr WPILogMetadata :=
  if key = "entry" then
    match splitFirstSemi payload with
    | .error e => .error e
    | .ok (idStr, rest) =>
      match pyInt idStr with
      | .error e => .error e
      | .ok id => .ok { md with entry_names := dictSet md.entry_names id rest }
  else if key = "type" then
    match splitFirstSemi payload with
    | .error e => .error e
    | .ok (idStr, rest) =>
      match pyInt idStr with
      | .error e => .error e
      | .ok id => .ok { md with entry_types := dictSet md.entry_types id rest }
  else .ok md

/-- The record loop of `parse_wpilog`, one fuel unit per iteration.  Every
iteration reads a 1-byte kind and an 8-byte little-endian microsecond
timestamp, then dispatches on the kind; any Python exception is caught by
the blanket except of the source, recorded as a `LogMsg.parseError` with
the offset the loop variable held at that point, and terminates the loop.
An unresolved data-record id or an unknown record kind also terminates the
loop, with its own message.  Fuel exhaustion returns the accumulated state;
`parse_wpilog` always passes enough fuel, since every iteration consumes at
least nine bytes. -/
def parseLoop (data : List Nat) :
    Nat → Nat → WPILogMetadata → List Entry → List LogMsg → ParseOut
  | 0, _, md, acc, logs => ⟨md, acc, logs⟩
  | fuel + 1, offset, md, acc, logs =>
    if offset < data.length then
      let kind := data.getD offset 0
      let off1 := offset + 1
      match unpackExact data off1 8 with
      | .error e => ⟨md, acc, logs ++ [.parseError off1 e]⟩
      | .ok tsBytes =>
        let ts : ℚ := qdiv (intOfLESigned tsBytes : ℚ) 1000000
        let off2 := off1 + 8
        if kind = 0 then
          match byteAt data off2 with
          | .error e => ⟨md, acc, logs ++ [.parseError off2 e]⟩
          | .ok ct =>
            let md1 := if ct = 0 then { md with start_time := some ts } else md
            let logs1 := if ct = 0 ∨ ct = 1 then logs else logs ++ [.unknownControlType ct]
            parseLoop data fuel (off2 + 1) md1 acc logs1
        else if kind = 1 then
          match read_string data off2 with
          | .error e => ⟨md, acc, logs ++ [.parseError off2 e]⟩
          | .ok (key, off3) =>
            match read_string data off3 with
            | .error e => ⟨md, acc, logs ++ [.parseError off3 e]⟩
            | .ok (payload, off4) =>
              match metadataStep md key payload with
              | .error e => ⟨md, acc, logs ++ [.parseError off4 e]⟩
              | .ok md1 => parseLoop data fuel off4 md1 acc logs
        else if kind = 2 then
          match unpackExact data off2 2 with
          | .error e => ⟨md, acc, logs ++ [.parseError off2 e]⟩
          | .ok idBytes =>
            let id := natOfLE idBytes
            let off3 := off2 + 2
            if ((md.entry_names.lookup (id : Int)).isSome &&
                (md.entry_types.lookup (id : Int)).isSome) then
              let name := (md.entry_names.lookup (id : Int)).getD ""
              let ty := (md.entry_types.lookup (id : Int)).getD ""
              match parse_value data off3 ty with
              | .error e => ⟨md, acc, logs ++ [.parseError off3 e]⟩
              | .ok (v, off4) =>
                parseLoop data fuel off4 md (acc ++ [⟨ts, name, v⟩]) logs
            else
              ⟨md, acc, logs ++ [.unknownEntryId id]⟩
        else
          ⟨md, acc, logs ++ [.unknownEntryKind kind]⟩
    else ⟨md, acc, logs⟩

/-- The 6-byte magic header WPILOG. -/
def wpilogMagic : List Nat := [0x57, 0x50, 0x49, 0x4C, 0x4F, 0x47]

/-- The source function `parse_wpilog`, over the in-memory buffer: check
the 6-byte header (raising `ValueError` on mismatch, the only exception
that escapes), then run the record loop from offset 6.  The buffer length
is more than enough fuel, as each loop iteration consumes at least nine
bytes. -/
def parse_wpilog (data : List Nat) : Except PErr ParseOut :=
  if sliceN data 0 6 = wpilogMagic then
    .ok (parseLoop data data.length 6 ⟨[], [], none⟩ [] [])
  else
    .error (.valueError "Invalid WPILog file header mismatch")

/-- A cell of the output table: either a Python value kept as is (the
timestamp, a selected scalar, or the empty string for a missing value), or
the `str()` rendering the source applies to list-typed values. -/
inductive Cell where
  | val (v : PyValue)
  | arrayStr (vs : List PyValue)

/-- Per-file summary statistics returned by `generate_csv`. -/
structure CsvStats where
  total_entries : Nat
  unique_types : Nat
  start_time : ℚ
  end_time : ℚ
  duration : ℚ
  rows : Nat

/-- Observable output of `generate_csv`: the header row, the data rows as
written to the CSV file, and the returned statistics dict. -/
structure CsvOut where
  header : List String
  csv_data : List (List Cell)
  stats : CsvStats

/-- One step of the grouping loop of `generate_csv`: append the pair to the
list under the entry name, creating the key when absent (Python dict
insertion order). -/
def addEntryToGroups (groups : List (String × List (ℚ × PyValue))) (e : Entry) :
    List (String × List (ℚ × PyValue)) :=
  if (groups.lookup e.name).isSome then
    groups.map (fun p => if p.1 = e.name then (p.1, p.2 ++ [(e.timestamp, e.value)]) else p)
  else
    groups ++ [(e.name, [(e.timestamp, e.value)])]

/-- The `entries_by_name` dict of `generate_csv`. -/
def groupEntries (entries : List Entry) : List (String × List (ℚ × PyValue)) :=
  entries.foldl addEntryToGroups []

/-- The (timestamp, value) pairs of the entries with a given name, in
emission order: the specification reading of a channel series, used to
characterise `groupEntries`. -/
def pairsOf (entries : List Entry) (n : String) : List (ℚ × PyValue) :=
  (entries.filter (fun e => e.name = n)).map (fun e => (e.timestamp, e.value))

/-- Codepoint-lexicographic order on character lists: the order Python uses
to compare strings. -/
def charsLe : List Char → List Char → Bool
  | [], _ => true
  | _ :: _, [] => false
  | a :: as, b :: bs =>
    if a.toNat < b.toNat then true
    else if b.toNat < a.toNat then false
    else charsLe as bs

/-- Python string comparison, by code points. -/
def strLe (a b : String) : Bool := charsLe a.data b.data

/-- Insertion of one string into a sorted list, for `sorted(keys)`. -/
def insortStr (s : String) : List String → List String
  | [] => [s]
  | t :: rest => if strLe s t then s :: t :: rest else t :: insortStr s rest

/-- Python `sorted` on strings: lexicographic by code point. -/
def sortStrings (l : List String) : List String := l.foldr insortStr []

/-- The while loop building the time grid: collect `current` and advance by
`period` while `current` is at most `stop`; one fuel unit per iteration. -/
def gridLoop (period stop : ℚ) : Nat → ℚ → List ℚ
  | 0, _ => []
  | n + 1, current =>
    if current ≤ stop then current :: gridLoop period stop n (qadd current period) else []

/-- Iteration count of the grid loop: for a positive period and
`start ≤ stop` the loop runs exactly `floor ((stop - start) / period) + 1`
collecting iterations, so this fuel reproduces the loop output exactly.
(The source loop never terminates for a nonpositive period; callers always
pass a positive one.) -/
def gridSteps (start stop period : ℚ) : Nat :=
  if 0 < period ∧ start ≤ stop then ((qdiv (qsub stop start) period).floor).toNat + 1 else 1

/-- The time grid `generate_csv` builds from the entries: from the minimum
timestamp to the maximum, stepping by `period_ms / 1000`. -/
def gridOf (entries : List Entry) (period_ms : ℚ) : List ℚ :=
  match entries with
  | [] => []
  | e0 :: rest =>
    let start_time := (rest.map Entry.timestamp).foldl min e0.timestamp
    let end_time := (rest.map Entry.timestamp).foldl max e0.timestamp
    let period_s := qdiv period_ms 1000
    gridLoop period_s end_time (gridSteps start_time end_time period_s) start_time

/-- The scan for the last pair at or before `ts`: walk the series in order,
remembering the latest qualifying pair, stopping at the first pair beyond
`ts` (the for/else-break loop of the source). -/
def findBefore (ts : ℚ) : List (ℚ × PyValue) → Option (ℚ × PyValue) → Option (ℚ × PyValue)
  | [], acc => acc
  | (t, v) :: rest, acc => if t ≤ ts then findBefore ts rest (some (t, v)) else acc

/-- The scan for the first pair at or after `ts`: the source walks the
reversed series, remembering the latest qualifying pair, stopping at the
first pair strictly before `ts`; this is that walk, to be applied to the
reversed series. -/
def findAfter (ts : ℚ) : List (ℚ × PyValue) → Option (ℚ × PyValue) → Option (ℚ × PyValue)
  | [], acc => acc
  | (t, v) :: rest, acc => if ts ≤ t then findAfter ts rest (some (t, v)) else acc

/-- The rendering `generate_csv` applies to a selected value: lists go
through `str()`, everything else is kept as is. -/
def cellOf : PyValue → Cell
  | .list vs => .arrayStr vs
  | v => .val v

/-- The per-channel cell selection of `generate_csv` at one grid timestamp:
nearest of the before/after neighbours, ties to before, empty string when
the channel has no data on either side. -/
def selectCell (entry_data : List (ℚ × PyValue)) (ts : ℚ) : Cell :=
  let before := findBefore ts entry_data none
  let after := findAfter ts entry_data.reverse none
  let value : PyValue :=
    match before, after with
    | none, none => .str ""
    | none, some a => a.2
    | some b, none => b.2
    | some b, some a => if qsub ts b.1 ≤ qsub a.1 ts then b.2 else a.2
  cellOf value

/-- One output row: the raw grid timestamp followed by one selected cell
per channel, channels in sorted order. -/
def buildRow (groups : List (String × List (ℚ × PyValue))) (sorted_names : List String)
    (ts : ℚ) : List Cell :=
  .val (.float (.finite ts)) :: sorted_names.map (fun n => selectCell ((groups.lookup n).getD []) ts)

/-- The source function `generate_csv(entries, output_file, period_ms)`:
group entries by name, return `None` when there are no entries (printing
No entries found), otherwise build the grid, the header, the rows and the
statistics dict. -/
def generate_csv (entries : List Entry) (period_ms : ℚ) : Option CsvOut :=
  let entries_by_name := groupEntries entries
  match entries with
  | [] => none
  | e0 :: rest =>
    let start_time := (rest.map Entry.timestamp).foldl min e0.timestamp
    let end_time := (rest.map Entry.timestamp).foldl max e0.timestamp
    let timestamps := gridOf (e0 :: rest) period_ms
    let sorted_names := sortStrings (entries_by_name.map Prod.fst)
    let header := "Timestamp" :: sorted_names
    let csv_data := timestamps.map (buildRow entries_by_name sorted_names)
    some ⟨header, csv_data,
      ⟨(e0 :: rest).length, sorted_names.length, start_time, end_time,
        qsub end_time start_time, csv_data.length⟩⟩

/-- Observable result of `process_file`: the success flag and, within the
returned dict, the reported log start time, the statistics, and the error
string when one was caught. -/
structure ProcessResult where
  success : Bool
  log_start_time : Option ℚ
  stats : Option CsvStats
  error : Option String

/-- The source function `process_file`, over the file contents: parse, then
resample.  A header mismatch is caught by the blanket except and reported
as a failure.  When `generate_csv` returns `None` (no entries), the
`**stats` expansion in the success dict raises a `TypeError`, which the
same blanket except catches, so the call also reports a failure.  The
reported log start time follows Python truthiness: both a missing start
record and a start record at timestamp zero report Unknown (here `none`). -/
def process_file (data : List Nat) (period_ms : ℚ) : ProcessResult :=
  match parse_wpilog data with
  | .error _ => ⟨false, none, none, some "Invalid WPILog file header mismatch"⟩
  | .ok out =>
    let logStart : Option ℚ :=
      match out.metadata.start_time with
      | some t => if t = 0 then none else some t
      | none => none
    match generate_csv out.entries period_ms with
    | none => ⟨false, logStart, none, some "argument of type NoneType is not a mapping"⟩
    | some csv => ⟨true, logStart, some csv.stats, none⟩

/-- The example buffer of the specification: header, Start control at t=0,
metadata entry mapping id 0 to speed, metadata type mapping id 0 to double,
then two data records for id 0 with values 1.5 (raw timestamp 0) and 2.5
(raw timestamp 20000). -/
def exampleBuf : List Nat :=
  wpilogMagic
  ++ [0] ++ [0,0,0,0,0,0,0,0] ++ [0]
  ++ [1] ++ [0,0,0,0,0,0,0,0] ++ [5,0, 0x65,0x6E,0x74,0x72,0x79]
          ++ [7,0, 0x30,0x3B,0x73,0x70,0x65,0x65,0x64]
  ++ [1] ++ [0,0,0,0,0,0,0,0] ++ [4,0, 0x74,0x79,0x70,0x65]
          ++ [8,0, 0x30,0x3B,0x64,0x6F,0x75,0x62,0x6C,0x65]
  ++ [2] ++ [0,0,0,0,0,0,0,0] ++ [0,0] ++ [0,0,0,0,0,0,0xF8,0x3F]
  ++ [2] ++ [0x20,0x4E,0,0,0,0,0,0] ++ [0,0] ++ [0,0,0,0,0,0,0x04,0x40]

/-- A valid buffer whose single channel carries two data records in
decreasing timestamp order: metadata for id 0 (name a, type double), then a
record at raw timestamp 20000 and one at raw timestamp 0. -/
def bufDecreasing : List Nat :=
  wpilogMagic
  ++ [1] ++ [0,0,0,0,0,0,0,0] ++ [5,0, 0x65,0x6E,0x74,0x72,0x79] ++ [3,0, 0x30,0x3B,0x61]
  ++ [1] ++ [0,0,0,0,0,0,0,0] ++ [4,0, 0x74,0x79,0x70,0x65]
          ++ [8,0, 0x30,0x3B,0x64,0x6F,0x75,0x62,0x6C,0x65]
  ++ [2] ++ [0x20,0x4E,0,0,0,0,0,0] ++ [0,0] ++ [0,0,0,0,0,0,0xF8,0x3F]
  ++ [2] ++ [0,0,0,0,0,0,0,0] ++ [0,0] ++ [0,0,0,0,0,0,0x04,0x40]

/-- C4: decoding the example buffer and resampling at 20 ms yields exactly
the two rows with timestamps 0.000 and 0.020 and values 1.5 and 2.5
(timestamps and values exact: 1/50 = 0.020, 3/2 = 1.5, 5/2 = 2.5). -/
theorem c4_example_rows :
    (parse_wpilog exampleBuf).map
        (fun out => (generate_csv out.entries 20).map CsvOut.csv_data)
      = .ok (some [[.val (.float (.finite 0)), .val (.float (.finite (mkRat 3 2)))],
                   [.val (.float (.finite (mkRat 1 50))), .val (.float (.finite (mkRat 5 2)))]]) := by
  rfl

/-- C2 counterexample: on a buffer whose data record is truncated in the
middle of the fixed-width timestamp read, `parse_wpilog` returns normally
(an ok value, no events, the truncation only recorded in the printed
messages) — the claim that a `TruncatedData` error is surfaced to the
caller is false: the blanket except swallows it. -/
theorem c2_truncation_not_surfaced_counterexample :
    parse_wpilog (wpilogMagic ++ [2]) =
      .ok ⟨⟨[], [], none⟩, [], [.parseError 7 (.structError 8)]⟩ := by
  rfl

/-- C3 counterexample: decoding a string at offset 0 of a 3-byte buffer
that declares a 2-byte payload but holds only 1 byte succeeds with the
shorter string of length 1 and still reports the offset 2 + 2 = 4 past the
end of the buffer — the claim that the decode fails when fewer than length
bytes remain is false. -/
theorem c3_short_string_not_failing_counterexample :
    read_string [2, 0, 97] 0 = .ok ("a", 4) ∧
      ([2, 0, 97] : List Nat).length < 4 ∧ "a".length < natOfLE [2, 0] := by
  refine ⟨rfl, by norm_num, by decide⟩

/-- C6: on an empty event sequence `generate_csv` returns `None` for any
period (no table, no statistics, no exception), but `process_file` on a
valid log with no data records then reports failure: the `**stats`
expansion of that `None` raises a `TypeError` that the blanket except turns
into a success=False result. -/
theorem c6_empty_entries_process_file_fails :
    (∀ period_ms : ℚ, generate_csv [] period_ms = none) ∧
      process_file wpilogMagic 20 =
        ⟨false, none, none, some "argument of type NoneType is not a mapping"⟩ :=
  ⟨fun _ => rfl, rfl⟩

/-- C7 counterexample: a single event at 0.0005 s yields one row whose
first element is the raw timestamp value 1/2000; that value is not
representable with three decimal places (1/2000 times 1000 is not an
integer), so the row does not begin with a timestamp formatted to fixed
three-decimal precision. -/
theorem c7_timestamp_not_three_decimal_counterexample :
    (generate_csv [⟨mkRat 1 2000, "a", .int 7⟩] 20).map CsvOut.csv_data =
      some [[.val (.float (.finite (mkRat 1 2000))), .val (.int 7)]] ∧
      (qmul (mkRat 1 2000) 1000).den ≠ 1 := by
  refine ⟨rfl, by decide⟩

/-- C8 counterexample: `bufDecreasing` is accepted by the decoder and its
single channel a carries the series of timestamps 1/50 followed by 0, which
is not non-decreasing — sequential decoding order does not make per-channel
timestamps non-decreasing. -/
theorem c8_series_can_decrease_counterexample :
    (parse_wpilog bufDecreasing).map
        (fun out => out.entries.map (fun e => (e.name, e.timestamp)))
      = .ok [("a", mkRat 1 50), ("a", 0)] ∧ ¬ ((mkRat 1 50 : ℚ) ≤ 0) := by
  refine ⟨rfl, by decide⟩

/-- The reducible addition agrees with the standard one. -/
theorem qadd_eq_add (a b : ℚ) : qadd a b = a + b := by
  unfold qadd
  conv_rhs => rw [← Rat.num_divInt_den a, ← Rat.num_divInt_den b]
  rw [Rat.divInt_add_divInt _ _ (by exact_mod_cast a.den_nz) (by exact_mod_cast b.den_nz)]

/-- The reducible subtraction agrees with the standard one. -/
theorem qsub_eq_sub (a b : ℚ) : qsub a b = a - b := by
  unfold qsub
  conv_rhs => rw [← Rat.num_divInt_den a, ← Rat.num_divInt_den b]
  rw [Rat.divInt_sub_divInt _ _ (by exact_mod_cast a.den_nz) (by exact_mod_cast b.den_nz)]

/-- The reducible multiplication agrees with the standard one. -/
theorem qmul_eq_mul (a b : ℚ) : qmul a b = a * b := by
  unfold qmul
  conv_rhs => rw [← Rat.num_divInt_den a, ← Rat.num_divInt_den b]
  rw [Rat.divInt_mul_divInt']

/-- The reducible division agrees with the standard one. -/
theorem qdiv_eq_div (a b : ℚ) : qdiv a b = a / b := by
  unfold qdiv
  conv_rhs => rw [← Rat.num_divInt_den a, ← Rat.num_divInt_den b]
  rw [Rat.divInt_div_divInt]

/-- The reducible power of two agrees with the standard integer power. -/
theorem pow2_eq_zpow (e : ℤ) : pow2 e = (2 : ℚ) ^ e := by
  unfold pow2
  split
  · rename_i h
    rw [Rat.divInt_eq_div]
    push_cast
    rw [div_one, ← zpow_natCast (2 : ℚ) e.toNat, Int.toNat_of_nonneg h]
  · rename_i h
    rw [Rat.divInt_eq_div]
    push_cast
    rw [one_div, ← zpow_natCast (2 : ℚ) (-e).toNat, ← zpow_neg,
      Int.toNat_of_nonneg (by omega), neg_neg]

/-- A fixed-width read succeeds exactly when the requested bytes fit. -/
theorem unpackExact_ok (data : List Nat) (offset k : Nat) (h : offset + k ≤ data.length) :
    unpackExact data offset k = .ok (sliceN data offset k) := by
  have hl : (sliceN data offset k).length = k := by
    simp [sliceN]
    omega
  simp [unpackExact, hl]

/-- A fixed-width read of a positive width past the end of the buffer
raises `struct.error`. -/
theorem unpackExact_err (data : List Nat) (offset k : Nat) (hk : 0 < k)
    (h : data.length < offset + k) :
    unpackExact data offset k = .error (.structError k) := by
  have hl : (sliceN data offset k).length ≠ k := by
    simp [sliceN]
    omega
  simp [unpackExact, hl]

/-- C1: at any state of the record loop, on reaching a kind-2 data record
whose 16-bit entry id lacks a resolved name or a resolved type, the loop
returns at once: the metadata and the events decoded so far come back
unchanged as a partial result, the only trace is the printed unknown-id
message, and no error is raised (the loop's codomain carries no error at
all — the source catches every exception). -/
theorem c1_unresolved_id_stops_decode
    (data : List Nat) (fuel offset : Nat) (md : WPILogMetadata)
    (acc : List Entry) (logs : List LogMsg)
    (hoff : offset < data.length)
    (hkind : data.getD offset 0 = 2)
    (hid : offset + 11 ≤ data.length)
    (hunres :
      (md.entry_names.lookup ((natOfLE (sliceN data (offset + 9) 2)) : Int)).isSome = false ∨
      (md.entry_types.lookup ((natOfLE (sliceN data (offset + 9) 2)) : Int)).isSome = false) :
    parseLoop data (fuel + 1) offset md acc logs =
      ⟨md, acc, logs ++ [.unknownEntryId (natOfLE (sliceN data (offset + 9) 2))]⟩ := by
  have hu8 : unpackExact data (offset + 1) 8 = .ok (sliceN data (offset + 1) 8) :=
    unpackExact_ok _ _ _ (by omega)
  have hu2 : unpackExact data (offset + 1 + 8) 2 = .ok (sliceN data (offset + 1 + 8) 2) :=
    unpackExact_ok _ _ _ (by omega)
  have e9 : offset + 1 + 8 = offset + 9 := by omega
  rw [e9] at hu2
  rw [List.getD_eq_getElem data 0 hoff] at hkind
  rcases hunres with h | h <;>
    simp [parseLoop, hoff, hu8, hu2, e9, hkind, h]

/-- C1 witness: a buffer whose first record is a data record with the
never-described id 5 decodes to no events and the unknown-id message. -/
theorem c1_unresolved_id_stops_decode_witness :
    ((6 : Nat) < (wpilogMagic ++ [2, 0, 0, 0, 0, 0, 0, 0, 0, 5, 0]).length) ∧
    (wpilogMagic ++ [2, 0, 0, 0, 0, 0, 0, 0, 0, 5, 0]).getD 6 0 = 2 ∧
    6 + 11 ≤ (wpilogMagic ++ [2, 0, 0, 0, 0, 0, 0, 0, 0, 5, 0]).length ∧
    parseLoop (wpilogMagic ++ [2, 0, 0, 0, 0, 0, 0, 0, 0, 5, 0]) 1 6 ⟨[], [], none⟩ [] [] =
      ⟨⟨[], [], none⟩, [], [.unknownEntryId 5]⟩ := by
  refine ⟨by decide, by decide, by decide, ?_⟩
  exact c1_unresolved_id_stops_decode (wpilogMagic ++ [2, 0, 0, 0, 0, 0, 0, 0, 0, 5, 0]) 0 6
    ⟨[], [], none⟩ [] [] (by decide) (by decide) (by decide) (Or.inl (by decide))

/-- C2 amended: at every failing read site of the record loop, a read past
the buffer end terminates the loop with the exception and the current loop
offset only recorded in the printed messages; the partial events come back
unchanged and `parseLoop` returns normally, so no error reaches the
caller.  The six conjuncts cover every read of an iteration, one site
each, over independent loop states: (A) the 8-byte record timestamp, for
any record kind; (B) the 1-byte control-subtype index of a kind-0 record;
(C) the first length-prefixed string of a kind-1 record, for any error of
that read — in particular its truncated 2-byte prefix; (D) the second
string of a kind-1 record likewise; (E) the 2-byte entry id of a kind-2
record; (F) the typed value of a resolved kind-2 record, for any error of
`parse_value` — in particular any truncated fixed-width read inside a
scalar or array.  (A truncated length-prefixed payload raises nothing at
all: it silently yields a shorter string, the subject of C3.) -/
theorem c2_truncated_reads_logged_not_raised
    (dA : List Nat) (fA oA : Nat) (mA : WPILogMetadata) (aA : List Entry) (lA : List LogMsg)
    (hA1 : oA < dA.length) (hA2 : dA.length < oA + 9)
    (dB : List Nat) (fB oB : Nat) (mB : WPILogMetadata) (aB : List Entry) (lB : List LogMsg)
    (hB1 : oB < dB.length) (hB2 : dB.getD oB 0 = 0)
    (hB3 : oB + 9 ≤ dB.length) (hB4 : dB.length < oB + 10)
    (dC : List Nat) (fC oC : Nat) (mC : WPILogMetadata) (aC : List Entry) (lC : List LogMsg)
    (eC : PErr)
    (hC1 : oC < dC.length) (hC2 : dC.getD oC 0 = 1) (hC3 : oC + 9 ≤ dC.length)
    (hC4 : read_string dC (oC + 9) = .error eC)
    (dD : List Nat) (fD oD : Nat) (mD : WPILogMetadata) (aD : List Entry) (lD : List LogMsg)
    (kD : String) (o3D : Nat) (eD : PErr)
    (hD1 : oD < dD.length) (hD2 : dD.getD oD 0 = 1) (hD3 : oD + 9 ≤ dD.length)
    (hD4 : read_string dD (oD + 9) = .ok (kD, o3D)) (hD5 : read_string dD o3D = .error eD)
    (dE : List Nat) (fE oE : Nat) (mE : WPILogMetadata) (aE : List Entry) (lE : List LogMsg)
    (hE1 : oE < dE.length) (hE2 : dE.getD oE 0 = 2) (hE3 : oE + 9 ≤ dE.length)
    (hE4 : dE.length < oE + 11)
    (dF : List Nat) (fF oF : Nat) (mF : WPILogMetadata) (aF : List Entry) (lF : List LogMsg)
    (nmF tyF : String) (eF : PErr)
    (hF1 : oF < dF.length) (hF2 : dF.getD oF 0 = 2) (hF3 : oF + 11 ≤ dF.length)
    (hF4 : mF.entry_names.lookup ((natOfLE (sliceN dF (oF + 9) 2)) : Int) = some nmF)
    (hF5 : mF.entry_types.lookup ((natOfLE (sliceN dF (oF + 9) 2)) : Int) = some tyF)
    (hF6 : parse_value dF (oF + 11) tyF = .error eF) :
    parseLoop dA (fA + 1) oA mA aA lA =
      ⟨mA, aA, lA ++ [.parseError (oA + 1) (.structError 8)]⟩ ∧
    parseLoop dB (fB + 1) oB mB aB lB =
      ⟨mB, aB, lB ++ [.parseError (oB + 9) .indexError]⟩ ∧
    parseLoop dC (fC + 1) oC mC aC lC =
      ⟨mC, aC, lC ++ [.parseError (oC + 9) eC]⟩ ∧
    parseLoop dD (fD + 1) oD mD aD lD =
      ⟨mD, aD, lD ++ [.parseError o3D eD]⟩ ∧
    parseLoop dE (fE + 1) oE mE aE lE =
      ⟨mE, aE, lE ++ [.parseError (oE + 9) (.structError 2)]⟩ ∧
    parseLoop dF (fF + 1) oF mF aF lF =
      ⟨mF, aF, lF ++ [.parseError (oF + 11) eF]⟩ := by
  refine ⟨?_, ?_, ?_, ?_, ?_, ?_⟩
  · have hu8 : unpackExact dA (oA + 1) 8 = .error (.structError 8) :=
      unpackExact_err _ _ _ (by omega) (by omega)
    simp [parseLoop, hA1, hu8]
  · have hu8 : unpackExact dB (oB + 1) 8 = .ok (sliceN dB (oB + 1) 8) :=
      unpackExact_ok _ _ _ (by omega)
    have e9 : oB + 1 + 8 = oB + 9 := by omega
    have hnb : ¬ (oB + 9 < dB.length) := by omega
    have hba : byteAt dB (oB + 9) = .error .indexError := by simp [byteAt, hnb]
    rw [List.getD_eq_getElem dB 0 hB1] at hB2
    simp [parseLoop, hB1, hu8, e9, hba, hB2]
  · have hu8 : unpackExact dC (oC + 1) 8 = .ok (sliceN dC (oC + 1) 8) :=
      unpackExact_ok _ _ _ (by omega)
    have e9 : oC + 1 + 8 = oC + 9 := by omega
    rw [List.getD_eq_getElem dC 0 hC1] at hC2
    simp [parseLoop, hC1, hu8, e9, hC2, hC4]
  · have hu8 : unpackExact dD (oD + 1) 8 = .ok (sliceN dD (oD + 1) 8) :=
      unpackExact_ok _ _ _ (by omega)
    have e9 : oD + 1 + 8 = oD + 9 := by omega
    rw [List.getD_eq_getElem dD 0 hD1] at hD2
    simp [parseLoop, hD1, hu8, e9, hD2, hD4, hD5]
  · have hu8 : unpackExact dE (oE + 1) 8 = .ok (sliceN dE (oE + 1) 8) :=
      unpackExact_ok _ _ _ (by omega)
    have hu2 : unpackExact dE (oE + 1 + 8) 2 = .error (.structError 2) :=
      unpackExact_err _ _ _ (by omega) (by omega)
    have e9 : oE + 1 + 8 = oE + 9 := by omega
    rw [e9] at hu2
    rw [List.getD_eq_getElem dE 0 hE1] at hE2
    simp [parseLoop, hE1, hu8, hu2, e9, hE2]
  · have hu8 : unpackExact dF (oF + 1) 8 = .ok (sliceN dF (oF + 1) 8) :=
      unpackExact_ok _ _ _ (by omega)
    have hu2 : unpackExact dF (oF + 1 + 8) 2 = .ok (sliceN dF (oF + 1 + 8) 2) :=
      unpackExact_ok _ _ _ (by omega)
    have e9 : oF + 1 + 8 = oF + 9 := by omega
    rw [e9] at hu2
    have e11 : oF + 9 + 2 = oF + 11 := by omega
    rw [List.getD_eq_getElem dF 0 hF1] at hF2
    simp [parseLoop, hF1, hu8, hu2, e9, e11, hF2, hF4, hF5, hF6]

/-- C2 amended witness: one concrete truncated buffer per read site — a
cut timestamp, a missing control subtype, a cut string prefix in either
metadata string, a cut entry id, and a missing double payload — and in
every case the loop returns normally with only the logged message. -/
theorem c2_truncated_reads_logged_not_raised_witness :
    parseLoop (wpilogMagic ++ [2]) 1 6 ⟨[], [], none⟩ [] [] =
      ⟨⟨[], [], none⟩, [], [.parseError 7 (.structError 8)]⟩ ∧
    parseLoop (wpilogMagic ++ [0, 0, 0, 0, 0, 0, 0, 0, 0]) 1 6 ⟨[], [], none⟩ [] [] =
      ⟨⟨[], [], none⟩, [], [.parseError 15 .indexError]⟩ ∧
    parseLoop (wpilogMagic ++ [1, 0, 0, 0, 0, 0, 0, 0, 0, 5]) 1 6 ⟨[], [], none⟩ [] [] =
      ⟨⟨[], [], none⟩, [], [.parseError 15 (.structError 2)]⟩ ∧
    parseLoop (wpilogMagic ++ [1, 0, 0, 0, 0, 0, 0, 0, 0, 1, 0, 65, 9]) 1 6
        ⟨[], [], none⟩ [] [] =
      ⟨⟨[], [], none⟩, [], [.parseError 18 (.structError 2)]⟩ ∧
    parseLoop (wpilogMagic ++ [2, 0, 0, 0, 0, 0, 0, 0, 0, 0]) 1 6 ⟨[], [], none⟩ [] [] =
      ⟨⟨[], [], none⟩, [], [.parseError 15 (.structError 2)]⟩ ∧
    parseLoop (wpilogMagic ++ [2, 0, 0, 0, 0, 0, 0, 0, 0, 0, 0]) 1 6
        ⟨[(0, "speed")], [(0, "double")], none⟩ [] [] =
      ⟨⟨[(0, "speed")], [(0, "double")], none⟩, [], [.parseError 17 (.structError 8)]⟩ :=
  by
  apply c2_truncated_reads_logged_not_raised <;> first | rfl | decide

/-- C3 amended: whenever the 2-byte length prefix fits in the buffer and
the available payload bytes decode as UTF-8, `read_string` succeeds and
advances the offset by exactly 2 + length — also when fewer than length
bytes remain, in which case the decoded string is silently shorter than
declared. -/
theorem c3_string_read_advances_two_plus_length
    (data : List Nat) (offset : Nat) (s : String)
    (hpre : offset + 2 ≤ data.length)
    (hdec : decodeUtf8 (sliceN data (offset + 2) (natOfLE (sliceN data offset 2))) = .ok s) :
    read_string data offset = .ok (s, offset + 2 + natOfLE (sliceN data offset 2)) := by
  have hu2 : unpackExact data offset 2 = .ok (sliceN data offset 2) :=
    unpackExact_ok _ _ _ (by omega)
  simp [read_string, hu2, hdec]

/-- C3 amended witness: on the truncated buffer of the counterexample the
string read succeeds, consuming 2 + 2 bytes of a 3-byte buffer. -/
theorem c3_string_read_advances_two_plus_length_witness :
    (0 + 2 ≤ ([2, 0, 97] : List Nat).length) ∧
    decodeUtf8 (sliceN [2, 0, 97] (0 + 2) (natOfLE (sliceN [2, 0, 97] 0 2))) = .ok "a" ∧
    read_string [2, 0, 97] 0 = .ok ("a", 0 + 2 + natOfLE (sliceN [2, 0, 97] 0 2)) :=
  ⟨by decide, rfl,
    c3_string_read_advances_two_plus_length [2, 0, 97] 0 "a" (by decide) rfl⟩

/-- C5: whenever both neighbour scans produce a pair, the cell selection
picks the before pair exactly when `t - before.timestamp` is at most
`after.timestamp - t`, so ties go to the earlier pair. -/
theorem c5_tie_break_selects_before
    (entry_data : List (ℚ × PyValue)) (ts : ℚ) (b a : ℚ × PyValue)
    (hb : findBefore ts entry_data none = some b)
    (ha : findAfter ts entry_data.reverse none = some a) :
    selectCell entry_data ts =
      if ts - b.1 ≤ a.1 - ts then cellOf b.2 else cellOf a.2 := by
  simp only [selectCell, hb, ha, qsub_eq_sub]
  rw [apply_ite cellOf]

/-- C5 witness: a channel with points at t = 0 and t = 10 sampled at the
equidistant grid point t = 5 selects the earlier point. -/
theorem c5_tie_break_selects_before_witness :
    findBefore 5 [((0 : ℚ), PyValue.int 1), (10, PyValue.int 2)] none =
      some (0, PyValue.int 1) ∧
    findAfter 5 ([((0 : ℚ), PyValue.int 1), (10, PyValue.int 2)]).reverse none =
      some (10, PyValue.int 2) ∧
    selectCell [((0 : ℚ), PyValue.int 1), (10, PyValue.int 2)] 5 = Cell.val (PyValue.int 1) := by
  refine ⟨rfl, rfl, ?_⟩
  rw [c5_tie_break_selects_before [((0 : ℚ), PyValue.int 1), (10, PyValue.int 2)] 5
    (0, PyValue.int 1) (10, PyValue.int 2) rfl rfl]
  norm_num [cellOf]

/-- C9: the decoder raises an error exactly when the first six bytes are
not the WPILOG magic; with a valid header it always returns normally,
because every exception inside the record loop is caught there. -/
theorem c9_error_iff_bad_header (data : List Nat) :
    (parse_wpilog data).isOk = (data.take 6 == wpilogMagic) := by
  have hs : sliceN data 0 6 = data.take 6 := by simp [sliceN]
  by_cases h : data.take 6 = wpilogMagic <;>
    simp [parse_wpilog, hs, h, Except.isOk, Except.toBool, beq_iff_eq]

/-- C7 amended: every row of the output table begins with its grid
timestamp as the raw float value — the head of row i is exactly the ith
grid timestamp, with no formatting applied. -/
theorem c7_rows_begin_with_raw_timestamp
    (entries : List Entry) (period_ms : ℚ) (out : CsvOut)
    (h : generate_csv entries period_ms = some out) :
    out.csv_data.map List.head? =
      (gridOf entries period_ms).map (fun t => some (Cell.val (.float (.finite t)))) := by
  cases entries with
  | nil => simp [generate_csv] at h
  | cons e0 rest =>
    simp only [generate_csv] at h
    obtain rfl := Option.some.inj h
    simp only [List.map_map]
    rfl

/-- C7 amended witness: a one-event sequence at t = 0 yields one row whose
head is the raw timestamp cell. -/
theorem c7_rows_begin_with_raw_timestamp_witness :
    generate_csv [⟨0, "a", .int 1⟩] 20 =
      some ⟨["Timestamp", "a"], [[.val (.float (.finite 0)), .val (.int 1)]],
        ⟨1, 1, 0, 0, qsub 0 0, 1⟩⟩ ∧
    ([[Cell.val (.float (.finite 0)), Cell.val (.int 1)]] : List (List Cell)).map List.head? =
      (gridOf [⟨0, "a", .int 1⟩] 20).map (fun t => some (Cell.val (.float (.finite t)))) :=
  ⟨rfl,
    c7_rows_begin_with_raw_timestamp [⟨0, "a", .int 1⟩] 20
      ⟨["Timestamp", "a"], [[.val (.float (.finite 0)), .val (.int 1)]],
        ⟨1, 1, 0, 0, qsub 0 0, 1⟩⟩ rfl⟩

/-- Looking a key up after the overwrite-map of `dictSet`: the updated key
reads the new value when present, every other key is untouched. -/
theorem lookup_map_set (d : List (Int × String)) (k : Int) (v : String) (j : Int) :
    (d.map (fun p => if p.1 = k then (k, v) else p)).lookup j =
      if k = j then (d.lookup j).map (fun _ => v) else d.lookup j := by
  induction d with
  | nil => by_cases h : k = j <;> simp [h]
  | cons hd tl ih =>
    obtain ⟨a, b⟩ := hd
    simp only [List.map_cons]
    by_cases hak : a = k
    · subst hak
      simp only [if_pos rfl]
      by_cases haj : a = j
      · subst haj
        simp [List.lookup]
      · have hb : (j == a) = false := by simpa using Ne.symm haj
        simp [List.lookup, hb, haj, ih]
    · simp only [if_neg hak]
      by_cases haj : a = j
      · subst haj
        have hk : ¬ k = a := fun h => hak h.symm
        simp [List.lookup, hk]
      · have hb : (j == a) = false := by simpa using Ne.symm haj
        by_cases hkj : k = j
        · subst hkj
          simp [List.lookup, hb, ih]
        · simp [List.lookup, hb, hkj, ih]

/-- Looking a key up in a one-binding extension at the tail. -/
theorem lookup_append_single {α β : Type} [BEq α] (d : List (α × β)) (k : α) (v : β) (j : α) :
    (d ++ [(k, v)]).lookup j = (d.lookup j).or (if j == k then some v else none) := by
  induction d with
  | nil =>
    by_cases h : (j == k) = true <;> simp [List.lookup, h]
  | cons hd tl ih =>
    obtain ⟨a, b⟩ := hd
    by_cases h : (j == a) = true <;> simp [List.lookup, h, ih]

/-- C10 helper: Python dict assignment is last-wins — after `dictSet d k v`
the key k maps to v and every other key keeps its previous value. -/
theorem lookup_dictSet (d : List (Int × String)) (k : Int) (v : String) (j : Int) :
    (dictSet d k v).lookup j = if k = j then some v else d.lookup j := by
  unfold dictSet
  split
  · rename_i hsome
    rw [lookup_map_set]
    by_cases hkj : k = j
    · subst hkj
      obtain ⟨w, hw⟩ := Option.isSome_iff_exists.mp hsome
      simp [hw]
    · simp [hkj]
  · rename_i hnone
    rw [lookup_append_single]
    by_cases hkj : k = j
    · subst hkj
      have hn : d.lookup k = none := by
        cases hd : d.lookup k with
        | none => rfl
        | some w => rw [hd] at hnone; simp at hnone
      simp [hn]
    · simp [hkj, Ne.symm hkj]

/-- Looking a key up after the append-map of `addEntryToGroups`. -/
theorem lookup_map_append (g : List (String × List (ℚ × PyValue))) (nm : String)
    (pr : ℚ × PyValue) (n : String) :
    (g.map (fun p => if p.1 = nm then (p.1, p.2 ++ [pr]) else p)).lookup n =
      if nm = n then (g.lookup n).map (fun l => l ++ [pr]) else g.lookup n := by
  induction g with
  | nil => by_cases h : nm = n <;> simp [h]
  | cons hd tl ih =>
    obtain ⟨a, b⟩ := hd
    simp only [List.map_cons]
    by_cases ham : a = nm
    · subst ham
      simp only [if_pos rfl]
      by_cases han : a = n
      · subst han
        simp [List.lookup]
      · have hb : (n == a) = false := by simpa using Ne.symm han
        simp [List.lookup, hb, han, ih]
    · simp only [if_neg ham]
      by_cases han : a = n
      · subst han
        have hm : ¬ nm = a := fun h => ham h.symm
        simp [List.lookup, hm]
      · have hb : (n == a) = false := by simpa using Ne.symm han
        by_cases hmn : nm = n
        · subst hmn
          simp [List.lookup, hb, ih]
        · simp [List.lookup, hb, hmn, ih]

/-- One grouping step: the pair of the new entry is appended at the end of
the list under its name, other names unchanged. -/
theorem lookup_addEntryToGroups (g : List (String × List (ℚ × PyValue))) (e : Entry)
    (n : String) :
    (addEntryToGroups g e).lookup n =
      if e.name = n then some (((g.lookup n).getD []) ++ [(e.timestamp, e.value)])
      else g.lookup n := by
  unfold addEntryToGroups
  split
  · rename_i hsome
    rw [lookup_map_append]
    by_cases hn : e.name = n
    · subst hn
      obtain ⟨l, hl⟩ := Option.isSome_iff_exists.mp hsome
      simp [hl]
    · simp [hn]
  · rename_i hnone
    rw [lookup_append_single]
    by_cases hn : e.name = n
    · subst hn
      have hg : g.lookup e.name = none := by
        cases hd : g.lookup e.name with
        | none => rfl
        | some w => rw [hd] at hnone; simp at hnone
      simp [hg]
    · simp [hn, Ne.symm hn]

/-- The grouping loop over any starting table: the final list under a name
is whatever the table already held followed by the qualifying pairs in
emission order. -/
theorem groupEntries_loop (es : List Entry) (g : List (String × List (ℚ × PyValue)))
    (n : String) :
    (es.foldl addEntryToGroups g).lookup n =
      match g.lookup n with
      | some l => some (l ++ pairsOf es n)
      | none => if (pairsOf es n).isEmpty then none else some (pairsOf es n) := by
  induction es generalizing g with
  | nil =>
    cases hg : g.lookup n <;> simp [pairsOf, hg]
  | cons e es ih =>
    simp only [List.foldl_cons]
    rw [ih, lookup_addEntryToGroups]
    by_cases hn : e.name = n
    · have hp : pairsOf (e :: es) n = (e.timestamp, e.value) :: pairsOf es n := by
        simp [pairsOf, hn]
      rw [hp, hn]
      simp only [if_pos rfl]
      cases hg : g.lookup n <;> simp
    · have hp : pairsOf (e :: es) n = pairsOf es n := by
        simp [pairsOf, hn]
      rw [hp, if_neg hn]

/-- C8 amended: for every decoded event list and channel name, the grouped
channel series is exactly the subsequence of events with that name, in
emission order, as (timestamp, value) pairs — present in the table exactly
when nonempty.  No ordering of the timestamps themselves is guaranteed. -/
theorem c8_series_preserves_emission_order (entries : List Entry) (n : String) :
    (groupEntries entries).lookup n =
      if (pairsOf entries n).isEmpty then none else some (pairsOf entries n) := by
  have h := groupEntries_loop entries [] n
  simpa [groupEntries] using h

/-- C10: metadata assignment is last-wins and data records use the current
table.  First two conjuncts: after the dict assignment performed by a
metadata record for id k, the table maps k to the new value and leaves
every other id unchanged (no rollback).  Third conjunct: a data record
whose id resolves to name nm and type ty in the current table appends
exactly the event built from that name and the value decoded at that type,
so records decoded after a reassignment use the most recent mapping. -/
theorem c10_metadata_last_wins
    (d : List (Int × String)) (k j : Int) (w : String) (hne : j ≠ k)
    (data : List Nat) (fuel offset : Nat) (md : WPILogMetadata)
    (acc : List Entry) (logs : List LogMsg) (nm ty : String) (v : PyValue) (off4 : Nat)
    (hoff : offset < data.length)
    (hkind : data.getD offset 0 = 2)
    (hid : offset + 11 ≤ data.length)
    (hname : md.entry_names.lookup ((natOfLE (sliceN data (offset + 9) 2)) : Int) = some nm)
    (hty : md.entry_types.lookup ((natOfLE (sliceN data (offset + 9) 2)) : Int) = some ty)
    (hval : parse_value data (offset + 11) ty = .ok (v, off4)) :
    (dictSet d k w).lookup k = some w ∧
    (dictSet d k w).lookup j = d.lookup j ∧
    parseLoop data (fuel + 1) offset md acc logs =
      parseLoop data fuel off4 md
        (acc ++ [⟨qdiv ((intOfLESigned (sliceN data (offset + 1) 8) : Int) : ℚ) 1000000, nm, v⟩])
        logs := by
  refine ⟨?_, ?_, ?_⟩
  · rw [lookup_dictSet]
    simp
  · rw [lookup_dictSet]
    simp [Ne.symm hne]
  · have hu8 : unpackExact data (offset + 1) 8 = .ok (sliceN data (offset + 1) 8) :=
      unpackExact_ok _ _ _ (by omega)
    have hu2 : unpackExact data (offset + 1 + 8) 2 = .ok (sliceN data (offset + 1 + 8) 2) :=
      unpackExact_ok _ _ _ (by omega)
    have e9 : offset + 1 + 8 = offset + 9 := by omega
    rw [e9] at hu2
    rw [List.getD_eq_getElem data 0 hoff] at hkind
    have e11 : offset + 9 + 2 = offset + 11 := by omega
    simp [parseLoop, hoff, hu8, hu2, e9, e11, hkind, hname, hty, hval]

/-- C10 witness: a table holding old under id 0 is overwritten to new while
id 1 is untouched, and a data record for id 0 decoded when the table maps
0 to speed and double appends the event with that name and value. -/
theorem c10_metadata_last_wins_witness :
    ((1 : Int) ≠ 0) ∧
    (dictSet [((0 : Int), "old")] 0 "new").lookup 0 = some "new" ∧
    (dictSet [((0 : Int), "old")] 0 "new").lookup 1 = ([((0 : Int), "old")]).lookup 1 ∧
    parseLoop (wpilogMagic ++ [2, 0, 0, 0, 0, 0, 0, 0, 0, 0, 0, 0, 0, 0, 0, 0, 0, 0xF8, 0x3F])
        1 6 ⟨[(0, "speed")], [(0, "double")], none⟩ [] [] =
      parseLoop (wpilogMagic ++ [2, 0, 0, 0, 0, 0, 0, 0, 0, 0, 0, 0, 0, 0, 0, 0, 0, 0xF8, 0x3F])
        0 25 ⟨[(0, "speed")], [(0, "double")], none⟩
        [⟨qdiv ((intOfLESigned (sliceN
            (wpilogMagic ++ [2, 0, 0, 0, 0, 0, 0, 0, 0, 0, 0, 0, 0, 0, 0, 0, 0, 0xF8, 0x3F])
            (6 + 1) 8) : Int) : ℚ) 1000000, "speed", .float (.finite (mkRat 3 2))⟩] [] := by
  refine ⟨by decide, ?_⟩
  exact c10_metadata_last_wins [((0 : Int), "old")] 0 1 "new" (by decide)
    (wpilogMagic ++ [2, 0, 0, 0, 0, 0, 0, 0, 0, 0, 0, 0, 0, 0, 0, 0, 0, 0xF8, 0x3F])
    0 6 ⟨[(0, "speed")], [(0, "double")], none⟩ [] [] "speed" "double"
    (.float (.finite (mkRat 3 2))) 25 (by decide) (by decide) (by decide) rfl rfl rfl

end WPILog
